import Mathlib

/-!
# ConcurrentQueue (cppqueue.h)

A shallow embedding of `ConcurrentQueue<Data>`: a `std::deque<Data>` guarded by one
mutex and one condition variable.

Every member function takes `queue_mutex` on entry and holds it until it returns, so a
call is one atomic transition of the queue state.  The one exception is a wait on
`queue_cv` inside `wait_and_pop`: the wait releases the lock, other threads run, and the
lock is held again when the wait returns.  What the waiting thread finds at that moment
is supplied from outside as a `Wakeup`; the schedule of wake-ups of a call is a list, and
each wait the call performs consumes the head of it.
-/

namespace CTPTrader

/-- The result type of `std::condition_variable::wait_for`. -/
inductive cv_status where
  | no_timeout
  | timeout
deriving DecidableEq, Repr

/-- A call made on `queue_cv` by `wait_and_pop`, with what it reported:
`wait` is `queue_cv.wait(lock)`, `wait_for ms st` is
`queue_cv.wait_for(lock, std::chrono::milliseconds(ms))` returning `st`. -/
inductive CvCall where
  | wait
  | wait_for (ms : Int) (status : cv_status)
deriving DecidableEq, Repr

/-- One return from a wait on `queue_cv`, seen by the waiting thread once it holds the
lock again: `the_queue` is the content of the deque at that moment (other threads ran
while the lock was released), `status` is what `wait_for` reports (`wait` returns
nothing, so there the status is not looked at).  A wake-up may be caused by
`notify_one`, by `notify_all`, by the deadline, or be spurious. -/
structure Wakeup (Data : Type) where
  status : cv_status
  the_queue : List Data
deriving DecidableEq, Repr

/-- The data members of `ConcurrentQueue<Data>`.  `std::deque<Data>` is a list whose
head is `front()`; `queue_mutex` and `queue_cv` carry no data of their own. -/
structure ConcurrentQueue (Data : Type) where
  is_active : Bool
  the_queue : List Data
deriving DecidableEq, Repr

/-- The implicit default constructor: `is_active{ false }` and an empty deque. -/
def ConcurrentQueue.fresh {Data : Type} : ConcurrentQueue Data :=
  ⟨false, []⟩

/-- `notify_all()`: takes the lock and calls `queue_cv.notify_all()`. -/
def notify_all {Data : Type} (q : ConcurrentQueue Data) : ConcurrentQueue Data :=
  q

/-- `push_front(data)`: `the_queue.push_front(data); queue_cv.notify_one();`. -/
def push_front {Data : Type} (q : ConcurrentQueue Data) (data : Data) :
    ConcurrentQueue Data :=
  ⟨q.is_active, data :: q.the_queue⟩

/-- `push_back(data)`: `the_queue.push_back(data); queue_cv.notify_one();`. -/
def push_back {Data : Type} (q : ConcurrentQueue Data) (data : Data) :
    ConcurrentQueue Data :=
  ⟨q.is_active, q.the_queue ++ [data]⟩

/-- `empty()`: `return the_queue.empty();`, paired with the state it leaves. -/
def empty {Data : Type} (q : ConcurrentQueue Data) : Bool × ConcurrentQueue Data :=
  (q.the_queue.isEmpty, q)

/-- `queue_cv.wait(lock)`: the thread stays blocked until a wake-up arrives; with no
wake-up in the schedule it never returns (`none`). -/
def cv_wait {Data : Type} (q : ConcurrentQueue Data) (wakes : List (Wakeup Data)) :
    Option (ConcurrentQueue Data × List (Wakeup Data)) :=
  match wakes with
  | [] => none
  | w :: rest => some (⟨q.is_active, w.the_queue⟩, rest)

/-- `queue_cv.wait_for(lock, milliseconds(ms))`: returns at the next wake-up with the
status of that wake-up; with no wake-up in the schedule nothing else happens before the
deadline, and the call reports `timeout` on the queue as it was. -/
def cv_wait_for {Data : Type} (q : ConcurrentQueue Data) (wakes : List (Wakeup Data)) :
    cv_status × ConcurrentQueue Data × List (Wakeup Data) :=
  match wakes with
  | [] => (cv_status.timeout, q, [])
  | w :: rest => (w.status, ⟨q.is_active, w.the_queue⟩, rest)

/-- What a call of `wait_and_pop` leaves behind: the returned `bool`, the reference
argument `popped_value`, the queue, the calls made on `queue_cv` in order, and the
wake-ups of the schedule that were not consumed. -/
structure PopResult (Data : Type) where
  ret : Bool
  popped_value : Data
  queue : ConcurrentQueue Data
  waits : List CvCall
  rest : List (Wakeup Data)
deriving DecidableEq, Repr

/-- Lines 82-90 of `wait_and_pop`: the second emptiness check, then
`popped_value = the_queue.front(); the_queue.pop_front(); return true;`. -/
def wait_and_pop_tail {Data : Type} (q : ConcurrentQueue Data) (popped_value : Data)
    (waits : List CvCall) (rest : List (Wakeup Data)) : PopResult Data :=
  match q.the_queue with
  | [] => ⟨false, popped_value, q, waits, rest⟩
  | x :: xs => ⟨true, x, ⟨q.is_active, xs⟩, waits, rest⟩

/-- `bool wait_and_pop(Data& popped_value, int millsecond)`; `none` when the call never
returns (blocked in `queue_cv.wait` with no wake-up to come). -/
def wait_and_pop {Data : Type} (q : ConcurrentQueue Data) (popped_value : Data)
    (millsecond : Int) (wakes : List (Wakeup Data)) : Option (PopResult Data) :=
  if q.the_queue.isEmpty then
    if 0 = millsecond then
      some ⟨false, popped_value, q, [], wakes⟩
    else if -1 = millsecond then
      match cv_wait q wakes with
      | none => none
      | some (q1, rest) => some (wait_and_pop_tail q1 popped_value [CvCall.wait] rest)
    else
      match cv_wait_for q wakes with
      | (st, q1, rest) =>
        if cv_status.timeout = st then
          some ⟨false, popped_value, q1, [CvCall.wait_for millsecond st], rest⟩
        else
          some (wait_and_pop_tail q1 popped_value [CvCall.wait_for millsecond st] rest)
  else
    some (wait_and_pop_tail q popped_value [] wakes)

/-- One consumer thread calling `wait_and_pop(v, 0)` `n` times in a row on the same
variable `v`: the list of (returned flag, value of `v` after the call), the final queue
and the final value of `v`. -/
def pop_times {Data : Type} (q : ConcurrentQueue Data) (v : Data) :
    Nat → Option (List (Bool × Data) × ConcurrentQueue Data × Data)
  | 0 => some ([], q, v)
  | n + 1 =>
    match wait_and_pop q v 0 [] with
    | none => none
    | some r =>
      match pop_times r.queue r.popped_value n with
      | none => none
      | some (out, q2, v2) => some ((r.ret, r.popped_value) :: out, q2, v2)

/-- Two threads race on `wait_and_pop(a, 0)` and `wait_and_pop(b, 0)`.  Each call is one
critical section, so the race is decided by who takes `queue_mutex` first.  The result is
(the call on `a`, the call on `b`). -/
def pop_race {Data : Type} (q : ConcurrentQueue Data) (a b : Data) (a_first : Bool) :
    Option (PopResult Data × PopResult Data) :=
  if a_first then
    match wait_and_pop q a 0 [] with
    | none => none
    | some ra =>
      match wait_and_pop ra.queue b 0 [] with
      | none => none
      | some rb => some (ra, rb)
  else
    match wait_and_pop q b 0 [] with
    | none => none
    | some rb =>
      match wait_and_pop rb.queue a 0 [] with
      | none => none
      | some ra => some (ra, rb)

/-- `queue_cv.notify_all()` acting on the threads blocked on `queue_cv` (thread ids):
all of them are woken, none stays blocked.  The result is (woken, still blocked). -/
def cv_notify_all (blocked : List Nat) : List Nat × List Nat :=
  (blocked, [])

/-- `notify_all()` seen together with the threads blocked on `queue_cv`: the queue after
the call, the threads woken, the threads still blocked. -/
def notify_all_blocked {Data : Type} (q : ConcurrentQueue Data) (blocked : List Nat) :
    ConcurrentQueue Data × List Nat × List Nat :=
  (notify_all q, cv_notify_all blocked)

/-- `queue_cv.notify_one()` acting on the threads blocked on `queue_cv`: with no thread
blocked nothing happens, otherwise exactly one of them is woken.  Which one is
unspecified; `pick` makes the choice.  The result is (woken, still blocked). -/
def cv_notify_one (pick : Nat) (blocked : List Nat) : List Nat × List Nat :=
  if blocked.isEmpty then
    ([], [])
  else
    ((blocked.drop (pick % blocked.length)).take 1,
     blocked.eraseIdx (pick % blocked.length))

/-- `push_front(data)` seen together with the threads blocked on `queue_cv`: the queue
after `the_queue.push_front(data)`, then the outcome of `queue_cv.notify_one()`. -/
def push_front_blocked {Data : Type} (q : ConcurrentQueue Data) (data : Data)
    (pick : Nat) (blocked : List Nat) : ConcurrentQueue Data × List Nat × List Nat :=
  (push_front q data, cv_notify_one pick blocked)

/-- `push_back(data)` seen together with the threads blocked on `queue_cv`: the queue
after `the_queue.push_back(data)`, then the outcome of `queue_cv.notify_one()`. -/
def push_back_blocked {Data : Type} (q : ConcurrentQueue Data) (data : Data)
    (pick : Nat) (blocked : List Nat) : ConcurrentQueue Data × List Nat × List Nat :=
  (push_back q data, cv_notify_one pick blocked)

/-- The wake-ups that reach thread `tid`, blocked on `queue_cv`, after a call of another
thread has left the queue `q` and woken the threads `woken`, when no other thread runs
and there is neither a spurious wake-up nor a deadline: a woken `tid` takes the lock
next and finds `q`; a thread that was not woken sees no wake-up. -/
def wakeups_after {Data : Type} (tid : Nat) (q : ConcurrentQueue Data)
    (woken : List Nat) : List (Wakeup Data) :=
  if tid ∈ woken then [⟨cv_status.no_timeout, q.the_queue⟩] else []

/-- Thread `tid` is the only thread blocked on `queue_cv`, inside `wait_and_pop(v, -1)`
which it entered on the queue `q`; another thread then calls `push_back(x)`.  The
outcome of the call of `tid`, with the wake-up it gets from that `push_back`. -/
def pop_after_push_back {Data : Type} (q : ConcurrentQueue Data) (tid : Nat)
    (v x : Data) (pick : Nat) : Option (PopResult Data) :=
  match push_back_blocked q x pick [tid] with
  | (q1, woken, _) => wait_and_pop q v (-1) (wakeups_after tid q1 woken)

/-- A call on the queue by a client: the five member functions, `wait_and_pop` with
`millsecond = 0`. -/
inductive QueueOp (Data : Type) where
  | push_front (data : Data)
  | push_back (data : Data)
  | wait_and_pop
  | empty
  | notify_all
deriving DecidableEq, Repr

/-- The queue under a sequence of calls, with a log: the client variable the pops write
to, every item pushed so far and every item delivered by a pop that returned true, in
call order. -/
structure RunLog (Data : Type) where
  queue : ConcurrentQueue Data
  popped_value : Data
  pushed : List Data
  delivered : List Data
deriving DecidableEq, Repr

/-- One call applied to the queue and logged. -/
def run_op {Data : Type} (s : RunLog Data) : QueueOp Data → Option (RunLog Data)
  | QueueOp.push_front x =>
    some ⟨push_front s.queue x, s.popped_value, s.pushed ++ [x], s.delivered⟩
  | QueueOp.push_back x =>
    some ⟨push_back s.queue x, s.popped_value, s.pushed ++ [x], s.delivered⟩
  | QueueOp.wait_and_pop =>
    match wait_and_pop s.queue s.popped_value 0 [] with
    | none => none
    | some r =>
      if r.ret then some ⟨r.queue, r.popped_value, s.pushed, s.delivered ++ [r.popped_value]⟩
      else some ⟨r.queue, r.popped_value, s.pushed, s.delivered⟩
  | QueueOp.empty => some ⟨(empty s.queue).2, s.popped_value, s.pushed, s.delivered⟩
  | QueueOp.notify_all => some ⟨notify_all s.queue, s.popped_value, s.pushed, s.delivered⟩

/-- A finite sequence of calls applied in order. -/
def run_ops {Data : Type} (s : RunLog Data) : List (QueueOp Data) → Option (RunLog Data)
  | [] => some s
  | op :: ops =>
    match run_op s op with
    | none => none
    | some s1 => run_ops s1 ops

/-- The start of a run: a freshly constructed queue, nothing pushed, nothing delivered. -/
def RunLog.start {Data : Type} (v : Data) : RunLog Data :=
  ⟨ConcurrentQueue.fresh, v, [], []⟩

/-- In a timed-wait trace, the duration replaced by `ms`; the reported status is kept. -/
def CvCall.with_ms (ms : Int) : CvCall → CvCall
  | CvCall.wait => CvCall.wait
  | CvCall.wait_for _ st => CvCall.wait_for ms st

/-- A result of `wait_and_pop` with the duration in its trace replaced by `ms`. -/
def PopResult.with_ms {Data : Type} (ms : Int) (r : PopResult Data) : PopResult Data :=
  ⟨r.ret, r.popped_value, r.queue, r.waits.map (CvCall.with_ms ms), r.rest⟩

/-! # StrategyBase (ctastrategybase.cpp)

`std::string` and C strings are lists of characters. -/

/-- A call made on the engine `ce` by `StrategyBase::cancelOrder`. -/
inductive EngineCall where
  | cancelStopOrder (orderID : List Char)
  | cancelOrder (orderID : List Char)
deriving DecidableEq, Repr

/-- `std::string::find_first_of(chars)`: the position of the first character of `s`
that is equal to any character of `chars`; `none` is `std::string::npos`. -/
def find_first_of (s chars : List Char) : Option Nat :=
  s.findIdx? (fun c => chars.contains c)

/-- `StrategyBase::cancelOrder(orderID)`, as the list of calls it makes on `ce`.  The
constant `STOPORDERPREFIX` is declared outside this file and is a parameter here. -/
def cancelOrder ( STOPORDERPREFIX : List Char) (orderID : List Char) : List EngineCall :=
  if orderID.isEmpty then
    []
  else if none ≠ find_first_of orderID STOPORDERPREFIX then
    [EngineCall.cancelStopOrder orderID]
  else
    [EngineCall.cancelOrder orderID]

/-- C `isspace` in the "C" locale: space, `\t`, `\n`, `\v`, `\f`, `\r`. -/
def isspace (c : Char) : Bool :=
  c.toNat = 32 || (9 ≤ c.toNat && c.toNat ≤ 13)

/-- The digit loop of `strtol` in base ten: accumulate decimal digits, stop at the first
character that is not one. -/
def atoi_digits : Nat → List Char → Nat
  | acc, [] => acc
  | acc, c :: cs =>
    if c.isDigit then atoi_digits (acc * 10 + (c.toNat - 48)) cs else acc

/-- The range of C `long` (64 bits, LP64): `strtol` returns `LONG_MIN` or `LONG_MAX` for
a value outside it. -/
def clamp_long (n : Int) : Int :=
  if n < -9223372036854775808 then -9223372036854775808
  else if 9223372036854775807 < n then 9223372036854775807
  else n

/-- The conversion `(int)` of a `long`: the low 32 bits, read in two's complement. -/
def long_to_int (n : Int) : Int :=
  (n + 2147483648) % 4294967296 - 2147483648

/-- C `strtol(s, NULL, 10)`: skip leading white space, take an optional sign, then read
decimal digits up to the first other character; no digits give 0; the value is clamped
to the range of `long`. -/
def strtol (s : List Char) : Int :=
  match s.dropWhile isspace with
  | '-' :: cs => clamp_long (- (atoi_digits 0 cs : Int))
  | '+' :: cs => clamp_long (atoi_digits 0 cs : Int)
  | cs => clamp_long (atoi_digits 0 cs : Int)

/-- C `atoi`, as the C library defines it: `return (int) strtol(s, NULL, 10);`.  The
result is a 32-bit `int`. -/
def atoi (s : List Char) : Int :=
  long_to_int (strtol s)

/-- The erase-remove idiom of `convert_time_str2int`:
`s.erase(std::remove_if(s.begin(), s.end(), [](char c){ return c == ':'; }), s.end())`. -/
def erase_colons (s : List Char) : List Char :=
  s.filter (fun c => !(c == ':'))

/-- `StrategyBase::convert_time_str2int(update_time)`. -/
def convert_time_str2int (update_time : List Char) : Int :=
  let market_time_str := erase_colons update_time
  atoi market_time_str

/-- The character of a decimal digit. -/
def digit_char (d : Fin 10) : Char :=
  Char.ofNat (48 + d.val)

/-- Specification of the value `convert_time_str2int` is meant to read: the leading
decimal integer of a string.  After leading white space and an optional sign, the
longest run of decimal digits read as a numeral in base ten (0 when there is no digit),
negated after a minus sign.  It is a mathematical integer, with no bound. -/
def leading_decimal_integer (s : List Char) : Int :=
  let t := s.dropWhile isspace
  let body := if t.head? = some '-' ∨ t.head? = some '+' then t.tail else t
  let n : Nat :=
    Nat.ofDigits 10 ((body.takeWhile Char.isDigit).reverse.map (fun c => c.toNat - 48))
  if t.head? = some '-' then - (n : Int) else (n : Int)

/-! ## Helper lemmas -/

theorem foldl_push_back {Data : Type} (xs : List Data) (q : ConcurrentQueue Data) :
    xs.foldl push_back q = ⟨q.is_active, q.the_queue ++ xs⟩ := by
  induction xs generalizing q with
  | nil => simp
  | cons x xs ih => simp [ih, push_back]

theorem wait_and_pop_zero_nil {Data : Type} (act : Bool) (v : Data)
    (wakes : List (Wakeup Data)) :
    wait_and_pop ⟨act, []⟩ v 0 wakes = some ⟨false, v, ⟨act, []⟩, [], wakes⟩ := by
  simp [wait_and_pop]

theorem wait_and_pop_cons {Data : Type} (act : Bool) (x : Data) (xs : List Data)
    (v : Data) (millsecond : Int) (wakes : List (Wakeup Data)) :
    wait_and_pop ⟨act, x :: xs⟩ v millsecond wakes
      = some ⟨true, x, ⟨act, xs⟩, [], wakes⟩ := by
  simp [wait_and_pop, wait_and_pop_tail]

theorem pop_times_drain {Data : Type} (act : Bool) (xs : List Data) (v : Data) :
    pop_times ⟨act, xs⟩ v (xs.length + 1)
      = some (xs.map (fun x => (true, x)) ++ [(false, xs.getLast?.getD v)],
              ⟨act, []⟩, xs.getLast?.getD v) := by
  induction xs generalizing v with
  | nil => simp [pop_times, wait_and_pop_zero_nil]
  | cons x xs ih =>
    have hlast : (x :: xs).getLast?.getD v = xs.getLast?.getD x := by
      cases xs with
      | nil => simp
      | cons y ys =>
        rw [List.getLast?_cons_cons]
        simp [List.getLast?_eq_getLast]
    rw [List.length_cons, pop_times, wait_and_pop_cons]
    simp only [ih x, hlast]
    simp

theorem run_op_total {Data : Type} (s : RunLog Data) (op : QueueOp Data) :
    ∃ s1, run_op s op = some s1
      ∧ (s.pushed.Perm (s.delivered ++ s.queue.the_queue)
          → s1.pushed.Perm (s1.delivered ++ s1.queue.the_queue)) := by
  obtain ⟨⟨act, l⟩, v, pushed, delivered⟩ := s
  cases op with
  | push_front x =>
    refine ⟨_, rfl, ?_⟩
    intro h
    simp only [push_front]
    exact (List.perm_append_singleton x pushed).trans
      ((List.Perm.cons x h).trans List.perm_middle.symm)
  | push_back x =>
    refine ⟨_, rfl, ?_⟩
    intro h
    simp only [push_back]
    rw [← List.append_assoc]
    exact List.Perm.append_right [x] h
  | wait_and_pop =>
    cases l with
    | nil =>
      refine ⟨⟨⟨act, []⟩, v, pushed, delivered⟩, ?_, ?_⟩
      · simp [run_op, wait_and_pop_zero_nil]
      · exact id
    | cons y ys =>
      refine ⟨⟨⟨act, ys⟩, y, pushed, delivered ++ [y]⟩, ?_, ?_⟩
      · simp [run_op, wait_and_pop_cons]
      · intro h
        simpa using h
  | empty => exact ⟨_, rfl, id⟩
  | notify_all => exact ⟨_, rfl, id⟩

theorem run_ops_total {Data : Type} (ops : List (QueueOp Data)) (s : RunLog Data) :
    ∃ s1, run_ops s ops = some s1
      ∧ (s.pushed.Perm (s.delivered ++ s.queue.the_queue)
          → s1.pushed.Perm (s1.delivered ++ s1.queue.the_queue)) := by
  induction ops generalizing s with
  | nil => exact ⟨s, rfl, id⟩
  | cons op ops ih =>
    obtain ⟨s1, h1, inv1⟩ := run_op_total s op
    obtain ⟨s2, h2, inv2⟩ := ih s1
    refine ⟨s2, ?_, fun h => inv2 (inv1 h)⟩
    simp [run_ops, h1, h2]

theorem atoi_digit_head (d : Fin 10) (cs : List Char) :
    atoi (digit_char d :: cs)
      = long_to_int (clamp_long (atoi_digits 0 (digit_char d :: cs) : Int)) := by
  fin_cases d <;> rfl

theorem long_to_int_clamp_long (n : Int) (hlo : -2147483648 ≤ n) (hhi : n ≤ 2147483647) :
    long_to_int (clamp_long n) = n := by
  unfold long_to_int clamp_long
  split
  · omega
  · split <;> omega

theorem long_to_int_range (n : Int) :
    -2147483648 ≤ long_to_int n ∧ long_to_int n ≤ 2147483647 := by
  unfold long_to_int
  omega

theorem atoi_digits_eq (cs : List Char) (acc : Nat) :
    atoi_digits acc cs
      = acc * 10 ^ (cs.takeWhile Char.isDigit).length
        + Nat.ofDigits 10
            ((cs.takeWhile Char.isDigit).reverse.map (fun c => c.toNat - 48)) := by
  induction cs generalizing acc with
  | nil => simp [atoi_digits]
  | cons c cs ih =>
    by_cases hc : c.isDigit = true
    · rw [atoi_digits, if_pos hc, ih, List.takeWhile_cons_of_pos hc]
      simp only [List.length_cons, List.reverse_cons, List.map_append, List.map_cons,
        List.map_nil, Nat.ofDigits_append, Nat.ofDigits_singleton, List.length_map,
        List.length_reverse]
      ring
    · rw [atoi_digits, if_neg hc, List.takeWhile_cons_of_neg hc]
      simp

theorem strtol_eq (s : List Char) :
    strtol s = clamp_long (leading_decimal_integer s) := by
  unfold strtol leading_decimal_integer
  split
  · rename_i cs heq
    simp [heq, atoi_digits_eq cs 0]
  · rename_i cs heq
    simp [heq, atoi_digits_eq cs 0]
  · rename_i t hminus hplus
    cases ht : List.dropWhile isspace s with
    | nil => simp [atoi_digits]
    | cons c cs =>
      have h1 : c ≠ '-' := fun e => hminus cs (by rw [ht, e])
      have h2 : c ≠ '+' := fun e => hplus cs (by rw [ht, e])
      simp [h1, h2, atoi_digits_eq (c :: cs) 0]

theorem atoi_digits_digit (acc : Nat) (d : Fin 10) (cs : List Char) :
    atoi_digits acc (digit_char d :: cs) = atoi_digits (acc * 10 + d.val) cs := by
  fin_cases d <;> rfl

theorem erase_colons_digit (d : Fin 10) (cs : List Char) :
    erase_colons (digit_char d :: cs) = digit_char d :: erase_colons cs := by
  fin_cases d <;> rfl

theorem erase_colons_colon (cs : List Char) :
    erase_colons (':' :: cs) = erase_colons cs := by
  rfl

theorem find_first_of_eq_none (s chars : List Char) :
    find_first_of s chars = none ↔ ∀ c ∈ s, c ∉ chars := by
  simp [find_first_of, List.findIdx?_eq_none_iff]

theorem cancelOrder_nil (chars : List Char) : cancelOrder chars [] = [] := by
  rfl

theorem cancelOrder_stop (chars : List Char) (c : Char) (cs : List Char)
    (h : ∃ x ∈ c :: cs, x ∈ chars) :
    cancelOrder chars (c :: cs) = [EngineCall.cancelStopOrder (c :: cs)] := by
  have hne : ¬ (find_first_of (c :: cs) chars = none) := by
    rw [find_first_of_eq_none]
    push_neg
    exact h
  have hne2 : ¬ (none = find_first_of (c :: cs) chars) := fun e => hne e.symm
  simp [cancelOrder, hne2]

theorem cancelOrder_plain (chars : List Char) (c : Char) (cs : List Char)
    (h : ∀ x ∈ c :: cs, x ∉ chars) :
    cancelOrder chars (c :: cs) = [EngineCall.cancelOrder (c :: cs)] := by
  have he : find_first_of (c :: cs) chars = none := (find_first_of_eq_none _ _).mpr h
  simp [cancelOrder, he]

/-! ## Claims -/

/-- C1: FIFO order. Starting from a freshly constructed queue, after `push_back` of each
element of `xs` in order, `length xs + 1` calls `wait_and_pop(v, 0)` return true with the
elements of `xs` in the order they were appended, and then false once (with `v` left at
the last delivered element), leaving the queue as constructed. -/
theorem fifo_order {Data : Type} (xs : List Data) (v : Data) :
    pop_times (xs.foldl push_back ConcurrentQueue.fresh) v (xs.length + 1)
      = some (xs.map (fun x => (true, x)) ++ [(false, xs.getLast?.getD v)],
              ConcurrentQueue.fresh, xs.getLast?.getD v) := by
  rw [foldl_push_back]
  exact pop_times_drain false xs v

/-- C2, as stated, fails: a consumer blocked in `wait_and_pop(v, -1)` on a freshly
constructed queue and woken while the queue is still empty (the state `notify_all()`
leaves) returns false after its single wait; the later wake-up that would have found the
element 7 is never waited for. -/
theorem indefinite_wait_returns_false :
    wait_and_pop (ConcurrentQueue.fresh : ConcurrentQueue Nat) 0 (-1)
        [⟨cv_status.no_timeout, (notify_all ConcurrentQueue.fresh).the_queue⟩,
         ⟨cv_status.no_timeout, [7]⟩]
      = some ⟨false, 0, ConcurrentQueue.fresh, [CvCall.wait],
              [⟨cv_status.no_timeout, [7]⟩]⟩ := by
  decide

/-- C2, amended: `wait_and_pop(v, -1)` waits at most once. On a non-empty queue it
returns true at once. On an empty queue it blocks in one `queue_cv.wait` (and stays
blocked while no wake-up comes); when woken it re-checks once and returns true with the
front element if the queue is then non-empty, and false, with `v` and the queue
untouched and without waiting again, if the queue is still empty. -/
theorem indefinite_wait_checks_once {Data : Type} (act : Bool) (v : Data)
    (st : cv_status) (rest : List (Wakeup Data)) (x : Data) (xs : List Data) :
    wait_and_pop ⟨act, x :: xs⟩ v (-1) rest = some ⟨true, x, ⟨act, xs⟩, [], rest⟩
    ∧ wait_and_pop ⟨act, []⟩ v (-1) ([] : List (Wakeup Data)) = none
    ∧ wait_and_pop ⟨act, []⟩ v (-1) (⟨st, x :: xs⟩ :: rest)
        = some ⟨true, x, ⟨act, xs⟩, [CvCall.wait], rest⟩
    ∧ wait_and_pop ⟨act, []⟩ v (-1) (⟨st, []⟩ :: rest)
        = some ⟨false, v, ⟨act, []⟩, [CvCall.wait], rest⟩ := by
  refine ⟨wait_and_pop_cons act x xs v (-1) rest, ?_, ?_, ?_⟩ <;>
    simp [wait_and_pop, cv_wait, wait_and_pop_tail]

/-- C3, as stated, fails: `wait_and_pop(v, 1000)` on a freshly constructed queue, woken
before the deadline (`no_timeout`) while the queue is still empty, returns false at that
moment; the wake-up at which the deadline would have elapsed is never waited for. -/
theorem timed_wait_returns_before_deadline :
    wait_and_pop (ConcurrentQueue.fresh : ConcurrentQueue Nat) 0 1000
        [⟨cv_status.no_timeout, (notify_all ConcurrentQueue.fresh).the_queue⟩,
         ⟨cv_status.timeout, []⟩]
      = some ⟨false, 0, ConcurrentQueue.fresh,
              [CvCall.wait_for 1000 cv_status.no_timeout],
              [⟨cv_status.timeout, []⟩]⟩ := by
  decide

/-- C3, amended: for `millsecond > 0`, `wait_and_pop(v, millsecond)` on an empty queue
performs a single `wait_for`. Woken before the deadline while the queue is still empty,
it returns false at once, without waiting for the rest of the deadline; it also returns
false when the deadline elapses with the queue still empty. -/
theorem timed_wait_checks_once {Data : Type} (act : Bool) (v : Data) (millsecond : Int)
    (rest : List (Wakeup Data)) (h : 0 < millsecond) :
    wait_and_pop ⟨act, []⟩ v millsecond (⟨cv_status.no_timeout, []⟩ :: rest)
        = some ⟨false, v, ⟨act, []⟩,
                [CvCall.wait_for millsecond cv_status.no_timeout], rest⟩
    ∧ wait_and_pop ⟨act, []⟩ v millsecond (⟨cv_status.timeout, []⟩ :: rest)
        = some ⟨false, v, ⟨act, []⟩,
                [CvCall.wait_for millsecond cv_status.timeout], rest⟩
    ∧ wait_and_pop ⟨act, []⟩ v millsecond ([] : List (Wakeup Data))
        = some ⟨false, v, ⟨act, []⟩,
                [CvCall.wait_for millsecond cv_status.timeout], []⟩ := by
  have h0 : ¬ (0 = millsecond) := by omega
  have h1 : ¬ (-1 = millsecond) := by omega
  refine ⟨?_, ?_, ?_⟩ <;>
    simp [wait_and_pop, cv_wait_for, wait_and_pop_tail, h0, h1]

theorem timed_wait_checks_once_witness :
    (0 : Int) < 1000
    ∧ wait_and_pop (⟨false, []⟩ : ConcurrentQueue Nat) 0 1000
        (⟨cv_status.no_timeout, []⟩ :: [])
        = some ⟨false, 0, ⟨false, []⟩,
                [CvCall.wait_for 1000 cv_status.no_timeout], []⟩ :=
  ⟨by decide, (timed_wait_checks_once false 0 1000 [] (by decide)).1⟩

/-- C4, as stated, fails: the timed wait of `wait_and_pop(v, 100)` on a freshly
constructed queue reports `timeout`, another thread has done `push_back(5)` before the
waiter holds the lock again, and the call returns false with the queue holding 5. -/
theorem false_with_nonempty_queue :
    wait_and_pop (ConcurrentQueue.fresh : ConcurrentQueue Nat) 0 100
        [⟨cv_status.timeout, (push_back ConcurrentQueue.fresh 5).the_queue⟩]
      = some ⟨false, 0, ⟨false, [5]⟩, [CvCall.wait_for 100 cv_status.timeout], []⟩ := by
  decide

/-- C4, amended: whenever `wait_and_pop` returns false, either `the_queue` is empty at
the moment the call returns, or the call made a timed wait that reported
`cv_status::timeout`. -/
theorem false_means_empty_or_timeout {Data : Type} (q : ConcurrentQueue Data)
    (v : Data) (millsecond : Int) (wakes : List (Wakeup Data)) (r : PopResult Data)
    (h : wait_and_pop q v millsecond wakes = some r) (hret : r.ret = false) :
    r.queue.the_queue = []
      ∨ r.waits = [CvCall.wait_for millsecond cv_status.timeout] := by
  obtain ⟨act, l⟩ := q
  cases l with
  | cons x xs =>
    rw [wait_and_pop_cons] at h
    cases h
    simp at hret
  | nil =>
    by_cases h0 : 0 = millsecond
    · subst h0
      rw [wait_and_pop_zero_nil] at h
      cases h
      exact Or.inl rfl
    · by_cases h1 : -1 = millsecond
      · subst h1
        cases wakes with
        | nil => simp [wait_and_pop, cv_wait] at h
        | cons w rest =>
          obtain ⟨st, wq⟩ := w
          cases wq with
          | nil =>
            simp [wait_and_pop, cv_wait, wait_and_pop_tail] at h
            subst h
            exact Or.inl rfl
          | cons y ys =>
            simp [wait_and_pop, cv_wait, wait_and_pop_tail] at h
            subst h
            simp at hret
      · cases wakes with
        | nil =>
          simp [wait_and_pop, cv_wait_for, h0, h1] at h
          subst h
          exact Or.inl rfl
        | cons w rest =>
          obtain ⟨st, wq⟩ := w
          cases st with
          | timeout =>
            simp [wait_and_pop, cv_wait_for, h0, h1] at h
            subst h
            exact Or.inr rfl
          | no_timeout =>
            cases wq with
            | nil =>
              simp [wait_and_pop, cv_wait_for, wait_and_pop_tail, h0, h1] at h
              subst h
              exact Or.inl rfl
            | cons y ys =>
              simp [wait_and_pop, cv_wait_for, wait_and_pop_tail, h0, h1] at h
              subst h
              simp at hret

theorem false_means_empty_or_timeout_witness :
    wait_and_pop (⟨false, []⟩ : ConcurrentQueue Nat) 0 (-1) [⟨cv_status.timeout, []⟩]
        = some ⟨false, 0, ⟨false, []⟩, [CvCall.wait], []⟩
    ∧ (⟨false, 0, ⟨false, []⟩, [CvCall.wait], []⟩ : PopResult Nat).ret = false
    ∧ ((⟨false, 0, ⟨false, []⟩, [CvCall.wait], []⟩ : PopResult Nat).queue.the_queue = []
        ∨ (⟨false, 0, ⟨false, []⟩, [CvCall.wait], []⟩ : PopResult Nat).waits
            = [CvCall.wait_for (-1) cv_status.timeout]) :=
  ⟨by decide, rfl,
   false_means_empty_or_timeout ⟨false, []⟩ 0 (-1) [⟨cv_status.timeout, []⟩]
     ⟨false, 0, ⟨false, []⟩, [CvCall.wait], []⟩ (by decide) rfl⟩

/-- C5: a pop from a non-empty queue ignores the timeout. For every queue `x :: rest`
and every `millsecond`, `wait_and_pop(v, millsecond)` returns true without any call on
`queue_cv` (no wake-up is consumed), sets `v` to `x` and leaves the queue equal to
`rest`. -/
theorem pop_nonempty_ignores_timeout {Data : Type} (act : Bool) (x : Data)
    (rest : List Data) (v : Data) (millsecond : Int) (wakes : List (Wakeup Data)) :
    wait_and_pop ⟨act, x :: rest⟩ v millsecond wakes
      = some ⟨true, x, ⟨act, rest⟩, [], wakes⟩ :=
  wait_and_pop_cons act x rest v millsecond wakes

/-- C6: non-blocking emptiness. `wait_and_pop(v, 0)` on an empty queue, in particular
on a freshly constructed one, returns false without any call on `queue_cv`, and the
queue is still empty (and `v` unchanged) afterwards. -/
theorem nonblocking_pop_on_empty {Data : Type} (act : Bool) (v : Data)
    (wakes : List (Wakeup Data)) :
    wait_and_pop ⟨act, []⟩ v 0 wakes = some ⟨false, v, ⟨act, []⟩, [], wakes⟩
    ∧ wait_and_pop ConcurrentQueue.fresh v 0 wakes
        = some ⟨false, v, ConcurrentQueue.fresh, [], wakes⟩ :=
  ⟨wait_and_pop_zero_nil act v wakes, wait_and_pop_zero_nil false v wakes⟩

/-- C7: front insertion takes precedence and round-trips. For every queue state `q` and
item `x`, after `push_front(x)` the next `wait_and_pop(v, 0)` returns true with
`v = x`, and the queue is then exactly `q` again. -/
theorem push_front_then_pop {Data : Type} (q : ConcurrentQueue Data) (x v : Data)
    (wakes : List (Wakeup Data)) :
    wait_and_pop (push_front q x) v 0 wakes = some ⟨true, x, q, [], wakes⟩ := by
  obtain ⟨act, l⟩ := q
  exact wait_and_pop_cons act x l v 0 wakes

/-- C8: wake on push. A consumer `tid` in `wait_and_pop(v, -1)` on an empty queue, the
only thread blocked on `queue_cv`, stays blocked while no thread wakes it. When another
thread calls `push_back(x)`, its `notify_one` wakes `tid`, whichever choice
`notify_one` makes; the blocked call then returns true with `v = x` after its one wait,
and the queue is empty afterwards. -/
theorem wake_on_push_back {Data : Type} (act : Bool) (v x : Data) (tid pick : Nat) :
    wait_and_pop ⟨act, []⟩ v (-1) (wakeups_after tid ⟨act, []⟩ []) = none
    ∧ push_back_blocked (⟨act, []⟩ : ConcurrentQueue Data) x pick [tid]
        = (⟨act, [x]⟩, [tid], [])
    ∧ pop_after_push_back ⟨act, []⟩ tid v x pick
        = some ⟨true, x, ⟨act, []⟩, [CvCall.wait], []⟩ := by
  have hpush : push_back_blocked (⟨act, []⟩ : ConcurrentQueue Data) x pick [tid]
      = (⟨act, [x]⟩, [tid], []) := by
    simp [push_back_blocked, push_back, cv_notify_one, Nat.mod_one]
  refine ⟨?_, hpush, ?_⟩
  · simp [wakeups_after, wait_and_pop, cv_wait]
  · simp [pop_after_push_back, hpush, wakeups_after, wait_and_pop, cv_wait,
      wait_and_pop_tail]

/-- C9: exactly one winner in a pop race. On a queue holding exactly `x`, the calls
`wait_and_pop(a, 0)` and `wait_and_pop(b, 0)` give, in either lock order, true with `x`
for the call that takes the lock first and false (its variable unchanged) for the other,
and the queue ends empty. -/
theorem pop_race_one_winner {Data : Type} (act : Bool) (x a b : Data) :
    pop_race ⟨act, [x]⟩ a b true
        = some (⟨true, x, ⟨act, []⟩, [], []⟩, ⟨false, b, ⟨act, []⟩, [], []⟩)
    ∧ pop_race ⟨act, [x]⟩ a b false
        = some (⟨false, a, ⟨act, []⟩, [], []⟩, ⟨true, x, ⟨act, []⟩, [], []⟩) := by
  constructor <;> simp [pop_race, wait_and_pop_cons, wait_and_pop_zero_nil]

/-- C10: emptiness check. `empty()` returns true exactly when the queue holds zero
elements and does not change the queue; it returns true on a freshly constructed queue
and false right after `push_front(x)` or `push_back(x)`. -/
theorem empty_iff_no_elements {Data : Type} (q : ConcurrentQueue Data) (x : Data) :
    ((empty q).1 = true ↔ q.the_queue.length = 0)
    ∧ (empty q).2 = q
    ∧ (empty (ConcurrentQueue.fresh : ConcurrentQueue Data)).1 = true
    ∧ (empty (push_front q x)).1 = false
    ∧ (empty (push_back q x)).1 = false := by
  refine ⟨?_, rfl, rfl, rfl, ?_⟩
  · simp [empty, List.isEmpty_iff]
  · simp [empty, push_back]

/-- C11: `notify_all()` leaves the data untouched. For every queue state it does not
change the content or order of `the_queue`, whatever threads are blocked on `queue_cv`;
with no thread blocked it wakes nobody and the state is as before; and every later pop,
with any timeout and any schedule, and every later run of non-blocking pops, gives the
same result as without the call. -/
theorem notify_all_keeps_data {Data : Type} (q : ConcurrentQueue Data)
    (blocked : List Nat) :
    (notify_all q).the_queue = q.the_queue
    ∧ (notify_all_blocked q blocked).1 = q
    ∧ notify_all_blocked q [] = (q, [], [])
    ∧ (∀ (v : Data) (millsecond : Int) (wakes : List (Wakeup Data)),
        wait_and_pop (notify_all q) v millsecond wakes = wait_and_pop q v millsecond wakes)
    ∧ (∀ (v : Data) (n : Nat), pop_times (notify_all q) v n = pop_times q v n) :=
  ⟨rfl, rfl, rfl, fun _ _ _ => rfl, fun _ _ => rfl⟩

/-- C12: a negative timeout other than -1 is treated as a timed wait. For every
`millsecond < -1`, `wait_and_pop(v, millsecond)` on an empty queue returns, after one
`wait_for` of `millsecond` milliseconds, exactly what the call with a positive timeout
`p` returns on the same schedule (the duration in the trace apart). -/
theorem negative_timeout_is_timed_wait {Data : Type} (act : Bool) (v : Data)
    (millsecond p : Int) (wakes : List (Wakeup Data))
    (hms : millsecond < -1) (hp : 0 < p) :
    wait_and_pop ⟨act, []⟩ v millsecond wakes
        = (wait_and_pop ⟨act, []⟩ v p wakes).map (PopResult.with_ms millsecond)
    ∧ ∃ r st, wait_and_pop ⟨act, []⟩ v millsecond wakes = some r
        ∧ r.waits = [CvCall.wait_for millsecond st] := by
  have hm0 : ¬ (0 = millsecond) := by omega
  have hm1 : ¬ (-1 = millsecond) := by omega
  have hp0 : ¬ (0 = p) := by omega
  have hp1 : ¬ (-1 = p) := by omega
  cases wakes with
  | nil =>
    simp [wait_and_pop, cv_wait_for, hm0, hm1, hp0, hp1, PopResult.with_ms,
      CvCall.with_ms]
  | cons w rest =>
    obtain ⟨st, wq⟩ := w
    cases st <;> cases wq <;>
      simp [wait_and_pop, cv_wait_for, wait_and_pop_tail, hm0, hm1, hp0, hp1,
        PopResult.with_ms, CvCall.with_ms]

theorem negative_timeout_is_timed_wait_witness :
    (-2 : Int) < -1 ∧ (0 : Int) < 5
    ∧ wait_and_pop (⟨false, []⟩ : ConcurrentQueue Nat) 0 (-2) [⟨cv_status.no_timeout, [4]⟩]
        = (wait_and_pop (⟨false, []⟩ : ConcurrentQueue Nat) 0 5
            [⟨cv_status.no_timeout, [4]⟩]).map (PopResult.with_ms (-2)) :=
  ⟨by decide, by decide,
   (negative_timeout_is_timed_wait false 0 (-2) 5 [⟨cv_status.no_timeout, [4]⟩]
      (by decide) (by decide)).1⟩

/-- C13: element conservation. Every finite sequence of `push_front`, `push_back`,
`wait_and_pop(_, 0)`, `empty` and `notify_all` applied to a freshly constructed queue
runs to the end; the multiset of pushed items is the multiset of items delivered by
successful pops plus the items still in the queue, and the queue length is the number of
pushes minus the number of successful pops. -/
theorem element_conservation {Data : Type} (ops : List (QueueOp Data)) (v : Data) :
    ∃ s, run_ops (RunLog.start v) ops = some s
      ∧ (Multiset.ofList s.pushed
          = Multiset.ofList s.delivered + Multiset.ofList s.queue.the_queue)
      ∧ s.queue.the_queue.length = s.pushed.length - s.delivered.length
      ∧ s.delivered.length ≤ s.pushed.length := by
  obtain ⟨s, hrun, inv⟩ := run_ops_total ops (RunLog.start v)
  have hperm : s.pushed.Perm (s.delivered ++ s.queue.the_queue) :=
    inv (by simp [RunLog.start, ConcurrentQueue.fresh])
  have hlen := hperm.length_eq
  rw [List.length_append] at hlen
  refine ⟨s, hrun, ?_, by omega, by omega⟩
  rw [Multiset.coe_add]
  exact Multiset.coe_eq_coe.mpr hperm

/-- C14: a failed pop has no effect. Whenever `wait_and_pop(popped_value, millsecond)`
returns false, `popped_value` holds the value it had before the call and the queue is
as the call found it when it last took the lock: the queue at entry if it made no wait
(or no wake-up was there to consume), else the queue of the wake-up it consumed. -/
theorem failed_pop_no_effect {Data : Type} (q : ConcurrentQueue Data) (v : Data)
    (millsecond : Int) (wakes : List (Wakeup Data)) (r : PopResult Data)
    (h : wait_and_pop q v millsecond wakes = some r) (hret : r.ret = false) :
    r.popped_value = v
    ∧ (r.waits = [] → r.queue = q ∧ r.rest = wakes)
    ∧ (wakes = [] → r.queue = q)
    ∧ (∀ w rest, wakes = w :: rest → r.waits ≠ [] →
        r.queue = ⟨q.is_active, w.the_queue⟩ ∧ r.rest = rest) := by
  obtain ⟨act, l⟩ := q
  cases l with
  | cons x xs =>
    rw [wait_and_pop_cons] at h
    cases h
    simp at hret
  | nil =>
    by_cases h0 : 0 = millsecond
    · subst h0
      rw [wait_and_pop_zero_nil] at h
      cases h
      simp
    · by_cases h1 : -1 = millsecond
      · subst h1
        cases wakes with
        | nil => simp [wait_and_pop, cv_wait] at h
        | cons w rest =>
          obtain ⟨st, wq⟩ := w
          cases wq with
          | nil =>
            simp [wait_and_pop, cv_wait, wait_and_pop_tail] at h
            subst h
            simp
          | cons y ys =>
            simp [wait_and_pop, cv_wait, wait_and_pop_tail] at h
            subst h
            simp at hret
      · cases wakes with
        | nil =>
          simp [wait_and_pop, cv_wait_for, h0, h1] at h
          subst h
          simp
        | cons w rest =>
          obtain ⟨st, wq⟩ := w
          cases st with
          | timeout =>
            simp [wait_and_pop, cv_wait_for, h0, h1] at h
            subst h
            simp
          | no_timeout =>
            cases wq with
            | nil =>
              simp [wait_and_pop, cv_wait_for, wait_and_pop_tail, h0, h1] at h
              subst h
              simp
            | cons y ys =>
              simp [wait_and_pop, cv_wait_for, wait_and_pop_tail, h0, h1] at h
              subst h
              simp at hret

theorem failed_pop_no_effect_witness :
    wait_and_pop (⟨false, []⟩ : ConcurrentQueue Nat) 3 100 [⟨cv_status.timeout, [5]⟩]
        = some ⟨false, 3, ⟨false, [5]⟩, [CvCall.wait_for 100 cv_status.timeout], []⟩
    ∧ (⟨false, 3, ⟨false, [5]⟩, [CvCall.wait_for 100 cv_status.timeout], []⟩ :
        PopResult Nat).ret = false
    ∧ (⟨false, 3, ⟨false, [5]⟩, [CvCall.wait_for 100 cv_status.timeout], []⟩ :
        PopResult Nat).popped_value = 3 :=
  ⟨by decide, rfl,
   (failed_pop_no_effect ⟨false, []⟩ 3 100 [⟨cv_status.timeout, [5]⟩]
      ⟨false, 3, ⟨false, [5]⟩, [CvCall.wait_for 100 cv_status.timeout], []⟩
      (by decide) rfl).1⟩

/-- C15: stop-order dispatch, evaluated where the code departs from the claim. With
the prefix `CtaStopOrder.`, the order id `a1` does not contain the prefix, yet
`cancelOrder` calls `cancelStopOrder`: `find_first_of` looks for any one character of the
prefix, not for the prefix as a substring. With an empty prefix, which every order id
contains, the id `1` goes to `cancelOrder`. -/
theorem cancelOrder_matches_single_character :
    cancelOrder ['C', 't', 'a', 'S', 't', 'o', 'p', 'O', 'r', 'd', 'e', 'r', '.']
        ['a', '1']
      = [EngineCall.cancelStopOrder ['a', '1']]
    ∧ ¬ (['C', 't', 'a', 'S', 't', 'o', 'p', 'O', 'r', 'd', 'e', 'r', '.']
          <:+: ['a', '1'])
    ∧ cancelOrder [] ['1'] = [EngineCall.cancelOrder ['1']]
    ∧ (([] : List Char) <:+: ['1']) := by
  refine ⟨by decide, by decide, by decide, by decide⟩

/-- C16, as stated, fails: on `21:47:48:36:48` the input without its colons is
`2147483648`, whose leading decimal integer is 2147483648, and `convert_time_str2int`
returns the `int` -2147483648. -/
theorem convert_time_exceeds_int :
    convert_time_str2int
        ['2', '1', ':', '4', '7', ':', '4', '8', ':', '3', '6', ':', '4', '8']
      = -2147483648
    ∧ erase_colons ['2', '1', ':', '4', '7', ':', '4', '8', ':', '3', '6', ':', '4', '8']
      = ['2', '1', '4', '7', '4', '8', '3', '6', '4', '8']
    ∧ leading_decimal_integer ['2', '1', '4', '7', '4', '8', '3', '6', '4', '8']
      = 2147483648 := by
  refine ⟨?_, rfl, ?_⟩
  · have h : erase_colons
        ['2', '1', ':', '4', '7', ':', '4', '8', ':', '3', '6', ':', '4', '8']
        = ['2', '1', '4', '7', '4', '8', '3', '6', '4', '8'] := rfl
    have hs : strtol ['2', '1', '4', '7', '4', '8', '3', '6', '4', '8'] = 2147483648 := by
      rfl
    simp only [convert_time_str2int, atoi, h, hs]
    rfl
  · rfl

/-- C16, amended: for every string `HH:MM:SS` of decimal digits and colons,
`convert_time_str2int` returns `HH*10000 + MM*100 + SS`. For every input, the result is
an `int`, and it equals the leading decimal integer of the input with its colons erased
whenever that integer is in the range of `int`; the erased string has no colon, keeps
the other characters in their order and keeps each of them as often as it occurs in the
input. -/
theorem convert_time_hhmmss (h1 h2 m1 m2 s1 s2 : Fin 10) :
    convert_time_str2int
        [digit_char h1, digit_char h2, ':', digit_char m1, digit_char m2, ':',
         digit_char s1, digit_char s2]
      = ((((10 * h1.val + h2.val) * 10000 + (10 * m1.val + m2.val) * 100
            + (10 * s1.val + s2.val) : Nat)) : Int)
    ∧ (∀ s : List Char,
        (-2147483648 ≤ leading_decimal_integer (erase_colons s) →
          leading_decimal_integer (erase_colons s) ≤ 2147483647 →
          convert_time_str2int s = leading_decimal_integer (erase_colons s))
        ∧ -2147483648 ≤ convert_time_str2int s
        ∧ convert_time_str2int s ≤ 2147483647
        ∧ ':' ∉ erase_colons s
        ∧ (erase_colons s).Sublist s
        ∧ ∀ c : Char, c ≠ ':' → (erase_colons s).count c = s.count c) := by
  constructor
  · simp only [convert_time_str2int, erase_colons_digit, erase_colons_colon,
      atoi_digit_head, atoi_digits_digit]
    have hnil : erase_colons [] = [] := rfl
    rw [hnil]
    simp only [atoi_digits]
    have b1 := h1.isLt
    have b2 := h2.isLt
    have b3 := m1.isLt
    have b4 := m2.isLt
    have b5 := s1.isLt
    have b6 := s2.isLt
    rw [long_to_int_clamp_long _ (by omega) (by omega)]
    congr 1
    ring
  · intro s
    refine ⟨?_, (long_to_int_range _).1, (long_to_int_range _).2, ?_, ?_, ?_⟩
    · intro hlo hhi
      simp only [convert_time_str2int, atoi, strtol_eq]
      exact long_to_int_clamp_long _ hlo hhi
    · simp [erase_colons, List.mem_filter]
    · exact List.filter_sublist s
    · intro c hc
      simp only [erase_colons]
      rw [List.count_filter]
      simpa using hc

theorem convert_time_hhmmss_witness :
    -2147483648 ≤ leading_decimal_integer
        (erase_colons ['0', '9', ':', '3', '0', ':', '0', '5'])
    ∧ leading_decimal_integer (erase_colons ['0', '9', ':', '3', '0', ':', '0', '5'])
        ≤ 2147483647
    ∧ convert_time_str2int ['0', '9', ':', '3', '0', ':', '0', '5']
        = leading_decimal_integer (erase_colons ['0', '9', ':', '3', '0', ':', '0', '5']) :=
  ⟨by decide, by decide,
   ((convert_time_hhmmss 0 9 3 0 0 5).2 ['0', '9', ':', '3', '0', ':', '0', '5']).1
     (by decide) (by decide)⟩

end CTPTrader
